import Mathlib

/-!
Verification of the Coinbase Pro order book data source
(hummingbot/market/coinbase_pro/coinbase_pro_api_order_book_data_source.py).

The Python source is shallowly embedded: dictionaries of parsed JSON frames
become association lists, floats become rationals with NaN modelled as the
missing case of Option, the exception-driven control flow of the websocket
listener becomes explicit result types, and the retry loops become fuelled
recursion with the fuel proved sufficient.
-/

namespace CoinbasePro

/-! ### String constants used as JSON keys and event kinds -/

def kType : String := "type"

def kPrice : String := "price"

def kError : String := "error"

def kOpen : String := "open"

def kMatch : String := "match"

def kChange : String := "change"

def kDone : String := "done"

def kReceived : String := "received"

def kActivate : String := "activate"

def kSubscriptions : String := "subscriptions"

def kSymbol : String := "symbol"

def kProductId : String := "product_id"

def kHeartbeat : String := "heartbeat"

/-! ### Frames -/

/-- JSON-like scalar values carried in websocket frame fields. Compound JSON
values are not needed by any claim about the listener. -/
inductive JVal where
  | str (s : String)
  | num (q : ℚ)
  | boolean (b : Bool)
  | null
  deriving DecidableEq

/-- A parsed websocket frame: the JSON object as an association list of fields,
mirroring the Python dict produced by ujson.loads. -/
abbrev Frame : Type := List (String × JVal)

/-- Model of Python msg.get applied with default None: a field holding JSON
null and an absent field are both reported as missing, exactly as in Python. -/
def frameGet (m : Frame) (k : String) : Option JVal :=
  match m.lookup k with
  | some JVal.null => none
  | v => v

/-- The msg_type extracted on line 211 of the source. -/
def frame_type (m : Frame) : Option JVal := frameGet m kType

/-- Model of the Python containment test for the price key on line 217:
key containment, so even a null price counts as present. -/
def has_price (m : Frame) : Bool := (m.lookup kPrice).isSome

/-- Exceptions that can escape one connection cycle of the diff listener and
reach the except clauses on lines 227-232. -/
inductive PyExc where
  | cancelled
  | discoveryError
  | parseError
  | missingTypeError
  | errorFrameError
  | unrecognizedError
  | otherError
  deriving DecidableEq

/-- Canonical diff message. The converter from a raw frame lives outside this
file (CoinbaseProOrderBook.diff_message_from_exchange); the claims only need
that a message is produced from the frame, so it carries the frame. -/
structure OrderBookMessage where
  content : Frame
  deriving DecidableEq

def diff_message_from_exchange (msg : Frame) : OrderBookMessage := ⟨msg⟩

/-- Classification of one parsed frame by the diff listener, lines 211-226 of
the source: ok (some m) means message m is enqueued with put_nowait, ok none
means the frame is skipped by continue, and error means a ValueError aborts
the session. -/
def handle_frame (msg : Frame) : Except PyExc (Option OrderBookMessage) :=
  match frame_type msg with
  | none => .error .missingTypeError
  | some t =>
    if t = JVal.str kError then .error .errorFrameError
    else if t = JVal.str kOpen ∨ t = JVal.str kMatch ∨ t = JVal.str kChange ∨
        t = JVal.str kDone then
      if t = JVal.str kDone ∧ has_price msg = false then .ok none
      else .ok (some (diff_message_from_exchange msg))
    else if t = JVal.str kReceived ∨ t = JVal.str kActivate ∨
        t = JVal.str kSubscriptions then .ok none
    else .error .unrecognizedError

/-- Run of the message loop body over a sequence of parsed frames: the diff
messages enqueued on the output queue in order, and the exception, if any,
that aborted the session before the remaining frames were processed. -/
def session_run : List Frame → List OrderBookMessage × Option PyExc
  | [] => ([], none)
  | msg :: rest =>
    match handle_frame msg with
    | .error e => ([], some e)
    | .ok none => session_run rest
    | .ok (some m) =>
      let r := session_run rest
      (m :: r.1, r.2)

/-! ### Claims C1 and C2: frame classification -/

/-- C1: in the streaming diff listener, every done frame lacking a price field
is discarded and never enqueued on the output queue, while every done frame
carrying a price field, and every open, match or change frame, is converted to
a diff message and enqueued. -/
theorem C1_done_price_filtering (msg : Frame) (rest : List Frame) :
    (frame_type msg = some (JVal.str kDone) → has_price msg = false →
      handle_frame msg = .ok none ∧ session_run (msg :: rest) = session_run rest) ∧
    (frame_type msg = some (JVal.str kDone) → has_price msg = true →
      handle_frame msg = .ok (some (diff_message_from_exchange msg)) ∧
      session_run (msg :: rest) =
        (diff_message_from_exchange msg :: (session_run rest).1, (session_run rest).2)) ∧
    (∀ t, (t = kOpen ∨ t = kMatch ∨ t = kChange) → frame_type msg = some (JVal.str t) →
      handle_frame msg = .ok (some (diff_message_from_exchange msg)) ∧
      session_run (msg :: rest) =
        (diff_message_from_exchange msg :: (session_run rest).1, (session_run rest).2)) := by
  refine ⟨?_, ?_, ?_⟩
  · intro h1 h2
    have hh : handle_frame msg = .ok none := by
      simp [handle_frame, h1, h2, kDone, kError]
    exact ⟨hh, by simp [session_run, hh]⟩
  · intro h1 h2
    have hh : handle_frame msg = .ok (some (diff_message_from_exchange msg)) := by
      simp [handle_frame, h1, h2, kDone, kError]
    exact ⟨hh, by simp [session_run, hh]⟩
  · intro t ht h1
    have hh : handle_frame msg = .ok (some (diff_message_from_exchange msg)) := by
      rcases ht with h | h | h <;> subst h <;>
        simp [handle_frame, h1, kOpen, kMatch, kChange, kDone, kError]
    exact ⟨hh, by simp [session_run, hh]⟩

/-- Witness for C1 at concrete frames: a done frame with no price contributes
nothing to the queue, a done frame with a price and an open frame are each
enqueued. -/
theorem C1_done_price_filtering_witness :
    session_run ([(kType, JVal.str kDone)] :: []) = session_run [] ∧
    session_run ([(kType, JVal.str kDone), (kPrice, JVal.num 5)] :: []) =
      (diff_message_from_exchange [(kType, JVal.str kDone), (kPrice, JVal.num 5)] ::
        (session_run []).1, (session_run []).2) ∧
    session_run ([(kType, JVal.str kOpen)] :: []) =
      (diff_message_from_exchange [(kType, JVal.str kOpen)] ::
        (session_run []).1, (session_run []).2) :=
  ⟨((C1_done_price_filtering _ _).1 (by decide) (by decide)).2,
   ((C1_done_price_filtering _ _).2.1 (by decide) (by decide)).2,
   ((C1_done_price_filtering _ _).2.2 kOpen (Or.inl rfl) (by decide)).2⟩

/-- C2: the classification of received frames is exhaustive: received, activate
and subscriptions frames produce no output and no error; a frame with a missing
kind field, an error frame, and a frame of any unrecognized kind each raise a
protocol error that aborts the session's message loop. -/
theorem C2_classification_exhaustive (msg : Frame) (rest : List Frame) :
    (∀ t, (t = kReceived ∨ t = kActivate ∨ t = kSubscriptions) →
      frame_type msg = some (JVal.str t) →
      handle_frame msg = .ok none ∧ session_run (msg :: rest) = session_run rest) ∧
    (frame_type msg = none →
      handle_frame msg = .error .missingTypeError ∧
      session_run (msg :: rest) = ([], some PyExc.missingTypeError)) ∧
    (frame_type msg = some (JVal.str kError) →
      handle_frame msg = .error .errorFrameError ∧
      session_run (msg :: rest) = ([], some PyExc.errorFrameError)) ∧
    (∀ t, frame_type msg = some t →
      t ∉ [JVal.str kError, JVal.str kOpen, JVal.str kMatch, JVal.str kChange,
        JVal.str kDone, JVal.str kReceived, JVal.str kActivate,
        JVal.str kSubscriptions] →
      handle_frame msg = .error .unrecognizedError ∧
      session_run (msg :: rest) = ([], some PyExc.unrecognizedError)) := by
  refine ⟨?_, ?_, ?_, ?_⟩
  · intro t ht h1
    have hh : handle_frame msg = .ok none := by
      rcases ht with h | h | h <;> subst h <;>
        simp [handle_frame, h1, kReceived, kActivate, kSubscriptions, kError,
          kOpen, kMatch, kChange, kDone]
    exact ⟨hh, by simp [session_run, hh]⟩
  · intro h1
    have hh : handle_frame msg = .error .missingTypeError := by
      simp [handle_frame, h1]
    exact ⟨hh, by simp [session_run, hh]⟩
  · intro h1
    have hh : handle_frame msg = .error .errorFrameError := by
      simp [handle_frame, h1]
    exact ⟨hh, by simp [session_run, hh]⟩
  · intro t h1 hmem
    simp only [List.mem_cons, List.not_mem_nil, or_false] at hmem
    push_neg at hmem
    obtain ⟨hne, hno, hnm, hnc, hnd, hnr, hna, hns⟩ := hmem
    have hh : handle_frame msg = .error .unrecognizedError := by
      simp [handle_frame, h1, hne, hno, hnm, hnc, hnd, hnr, hna, hns]
    exact ⟨hh, by simp [session_run, hh]⟩

/-- Witness for C2 at concrete frames: a subscriptions frame is skipped, an
empty frame and an error frame abort, and an unrecognized heartbeat kind
aborts. -/
theorem C2_classification_exhaustive_witness :
    session_run ([(kType, JVal.str kSubscriptions)] :: []) = session_run [] ∧
    session_run (([] : Frame) :: []) = ([], some PyExc.missingTypeError) ∧
    session_run ([(kType, JVal.str kError)] :: []) = ([], some PyExc.errorFrameError) ∧
    session_run ([(kType, JVal.str kHeartbeat)] :: []) =
      ([], some PyExc.unrecognizedError) :=
  ⟨((C2_classification_exhaustive _ _).1 kSubscriptions (Or.inr (Or.inr rfl))
      (by decide)).2,
   ((C2_classification_exhaustive _ _).2.1 (by decide)).2,
   ((C2_classification_exhaustive _ _).2.2.1 (by decide)).2,
   ((C2_classification_exhaustive _ _).2.2.2 (JVal.str kHeartbeat) (by decide)
      (by decide)).2⟩

/-! ### Inner message loop and reconnect cycle -/

def MESSAGE_TIMEOUT : ℚ := 30

def PING_TIMEOUT : ℚ := 10

/-- One observable event while awaiting the next frame in the inner loop:
either a frame arrives within MESSAGE_TIMEOUT; or the wait times out, in which
case a ping bounded by PING_TIMEOUT is issued and the flag records whether the
pong arrived in time; or the peer closes the connection. -/
inductive WsEvent where
  | frame (raw : String)
  | timeout (pongReceived : Bool)
  | closed
  deriving DecidableEq

/-- Cause for which the inner message loop terminated. -/
inductive SessionEnd where
  | pingTimeout
  | connClosed
  deriving DecidableEq

/-- Model of inner_messages, lines 175-195 of the source: yields raw frames
until the supplied events run out (none: the session is still alive) or until
a ping timeout or a peer-initiated close terminates the generator. In the
source both terminating causes return normally from the generator after
closing the socket in the finally block. -/
def inner_messages : List WsEvent → List String × Option SessionEnd
  | [] => ([], none)
  | e :: rest =>
    match e with
    | .frame s =>
      let r := inner_messages rest
      (s :: r.1, r.2)
    | .timeout true => inner_messages rest
    | .timeout false => ([], some .pingTimeout)
    | .closed => ([], some .connClosed)

/-- Result of one connection cycle of listen_for_order_book_diffs: either the
inner frame generator ended normally with a liveness cause, or an exception
propagated out of the try block. discoveryError is the top-level
get_trading_pairs call failing; the protocol errors are the ValueErrors of
handle_frame; parseError is a ujson.loads failure. -/
inductive SessionResult where
  | streamEnded (e : SessionEnd)
  | raised (exc : PyExc)
  deriving DecidableEq

/-- What the outer while loop of the listener does after one cycle. -/
inductive LoopAction where
  | halt
  | restartAfter (delay : ℚ)
  deriving DecidableEq

/-- Model of the except clauses on lines 227-232 of the source: a normal end
of the frame generator falls through to the next loop iteration at once;
CancelledError is re-raised and terminates the task; every other exception is
logged and followed by a 30 second sleep before the next iteration. -/
def listener_transition : SessionResult → LoopAction
  | .streamEnded _ => .restartAfter 0
  | .raised .cancelled => .halt
  | .raised _ => .restartAfter 30

/-! ### Claims C3, C4 and C7: timeouts, reconnect delays, task liveness -/

/-- C3: when awaiting the next frame exceeds the 30 second message timeout, a
ping bounded by the 10 second probe timeout is issued; if the pong arrives in
time the loop resumes awaiting frames within the same session, and if the ping
also times out the session ends and reconnection follows. -/
theorem C3_timeout_then_ping :
    MESSAGE_TIMEOUT = 30 ∧ PING_TIMEOUT = 10 ∧
    (∀ rest, inner_messages (WsEvent.timeout true :: rest) = inner_messages rest) ∧
    (∀ rest, inner_messages (WsEvent.timeout false :: rest) =
      ([], some SessionEnd.pingTimeout)) ∧
    listener_transition (.streamEnded .pingTimeout) = .restartAfter 0 :=
  ⟨rfl, rfl, fun _ => rfl, fun _ => rfl, rfl⟩

/-- C4: the reconnect path depends on the cause of session end: a
peer-initiated close or a probe-timeout liveness failure restarts the cycle
with no delay, while a parse error, any protocol error, a discovery failure or
any other unexpected exception restarts it only after the fixed 30 second
cooldown. -/
theorem C4_reconnect_delays :
    (∀ rest, inner_messages (WsEvent.closed :: rest) =
      ([], some SessionEnd.connClosed)) ∧
    listener_transition (.streamEnded .connClosed) = .restartAfter 0 ∧
    listener_transition (.streamEnded .pingTimeout) = .restartAfter 0 ∧
    listener_transition (.raised .parseError) = .restartAfter 30 ∧
    listener_transition (.raised .missingTypeError) = .restartAfter 30 ∧
    listener_transition (.raised .errorFrameError) = .restartAfter 30 ∧
    listener_transition (.raised .unrecognizedError) = .restartAfter 30 ∧
    listener_transition (.raised .discoveryError) = .restartAfter 30 ∧
    listener_transition (.raised .otherError) = .restartAfter 30 :=
  ⟨fun _ => rfl, rfl, rfl, rfl, rfl, rfl, rfl, rfl, rfl⟩

/-- C7: the diff listener task halts permanently only on explicit cancellation
or a top-level discovery failure; in the code only cancellation in fact halts
it, and under every other failure the listener restarts the session and
continues ingesting. -/
theorem C7_halt_only_on_cancellation :
    (∀ r, listener_transition r = .halt →
      r = .raised .cancelled ∨ r = .raised .discoveryError) ∧
    listener_transition (.raised .cancelled) = .halt ∧
    (∀ e, e ≠ PyExc.cancelled →
      listener_transition (.raised e) = .restartAfter 30) ∧
    (∀ s, listener_transition (.streamEnded s) = .restartAfter 0) := by
  refine ⟨?_, rfl, ?_, ?_⟩
  · intro r h
    cases r with
    | streamEnded s => simp [listener_transition] at h
    | raised e => cases e <;> simp_all [listener_transition]
  · intro e he
    cases e with
    | cancelled => exact absurd rfl he
    | _ => rfl
  · intro s
    rfl

/-- Witness for C7 at concrete causes: cancellation halts, any other exception
restarts after the cooldown, and a peer close restarts at once. -/
theorem C7_halt_only_on_cancellation_witness :
    (SessionResult.raised .cancelled = SessionResult.raised .cancelled ∨
      SessionResult.raised .cancelled = SessionResult.raised .discoveryError) ∧
    listener_transition (.raised .otherError) = .restartAfter 30 ∧
    listener_transition (.streamEnded .connClosed) = .restartAfter 0 :=
  ⟨C7_halt_only_on_cancellation.1 (.raised .cancelled) rfl,
   C7_halt_only_on_cancellation.2.2.1 PyExc.otherError (by decide),
   C7_halt_only_on_cancellation.2.2.2 SessionEnd.connClosed⟩

/-! ### Ticker retry loop and snapshot fetcher -/

def MAX_RETRIES : Nat := 20

def errTicker : String := "ticker fetch error"

def errSnapshot : String := "snapshot fetch error"

/-- One HTTP ticker response: the status plus the volume and price fields of
the JSON body; a missing field is none, matching the NaN default that
data.get supplies in the source. -/
structure TickerResponse where
  status : Nat
  volume : Option ℚ
  price : Option ℚ
  deriving DecidableEq

/-- Model of the per-instrument ticker retry loop in
get_active_exchange_markets, lines 73-87 of the source. resp i is the
response to request number i (counting from 0), c is the number of requests
already issued, and the fuel bounds the remaining iterations; fuel
MAX_RETRIES - c is sufficient because the loop always raises once
retry_counter reaches MAX_RETRIES. Returns the fetched volume and price on
status 200, a fetch error on any other status except 429, a fetch error on
429 once retry_counter equals MAX_RETRIES, and otherwise retries after the
fixed delay; the Nat component counts the requests issued. -/
def fetch_ticker_go (resp : Nat → TickerResponse) :
    Nat → Nat → Except String (Option ℚ × Option ℚ) × Nat
  | c, 0 => (.error errTicker, c)
  | c, fuel + 1 =>
    let r := resp c
    if r.status = 200 then (.ok (r.volume, r.price), c + 1)
    else if r.status ≠ 429 ∨ c + 1 = MAX_RETRIES then (.error errTicker, c + 1)
    else fetch_ticker_go resp (c + 1) fuel

/-- Entry point of the retry loop: retry_counter starts at zero. -/
def fetch_ticker (resp : Nat → TickerResponse) :
    Except String (Option ℚ × Option ℚ) × Nat :=
  fetch_ticker_go resp 0 MAX_RETRIES

/-- When every response up to MAX_RETRIES is the rate-limit status, the loop
raises a fetch error on request number MAX_RETRIES. -/
theorem fetch_ticker_go_all_rate_limited (resp : Nat → TickerResponse)
    (hall : ∀ i, i < MAX_RETRIES → (resp i).status = 429) :
    ∀ fuel c, 0 < fuel → c + fuel = MAX_RETRIES →
      fetch_ticker_go resp c fuel = (.error errTicker, MAX_RETRIES) := by
  intro fuel
  induction fuel with
  | zero => intro c h _; exact absurd h (by omega)
  | succ f ih =>
    intro c _ hsum
    have hM : MAX_RETRIES = 20 := rfl
    have hc : c < MAX_RETRIES := by omega
    have hs := hall c hc
    rcases Nat.eq_zero_or_pos f with hf | hf
    · subst hf
      have h20 : c + 1 = MAX_RETRIES := by omega
      simp [fetch_ticker_go, hs, h20]
    · have hne : c + 1 ≠ MAX_RETRIES := by omega
      have step : fetch_ticker_go resp c (f + 1) = fetch_ticker_go resp (c + 1) f := by
        simp [fetch_ticker_go, hs, hne]
      rw [step]
      exact ih (c + 1) hf (by omega)

/-- When the responses are the rate-limit status up to request k, which
succeeds within the retry budget, the loop returns the ticker of request k
after exactly k + 1 requests. -/
theorem fetch_ticker_go_success (resp : Nat → TickerResponse) (k : Nat)
    (h429 : ∀ i, i < k → (resp i).status = 429)
    (h200 : (resp k).status = 200) (hk : k + 1 ≤ MAX_RETRIES) :
    ∀ fuel c, c ≤ k → k < c + fuel →
      fetch_ticker_go resp c fuel =
        (.ok ((resp k).volume, (resp k).price), k + 1) := by
  intro fuel
  induction fuel with
  | zero => intro c h1 h2; exact absurd h2 (by omega)
  | succ f ih =>
    intro c hck hlt
    have hM : MAX_RETRIES = 20 := rfl
    rcases Nat.eq_or_lt_of_le hck with hc | hc
    · subst hc
      simp [fetch_ticker_go, h200]
    · have hs := h429 c hc
      have hne : c + 1 ≠ MAX_RETRIES := by omega
      have step : fetch_ticker_go resp c (f + 1) = fetch_ticker_go resp (c + 1) f := by
        simp [fetch_ticker_go, hs, hne]
      rw [step]
      exact ih (c + 1) (by omega) (by omega)

/-! ### Claim C5: bounded ticker retry -/

/-- C5: a response sequence of exactly 19 rate-limit statuses followed by a
success yields the ticker data after 20 requests; 20 consecutive rate-limit
statuses raise a fetch error; and any other non-success status raises a fetch
error immediately after a single request. -/
theorem C5_ticker_retry (resp : Nat → TickerResponse) :
    ((∀ i, i < 19 → (resp i).status = 429) → (resp 19).status = 200 →
      fetch_ticker resp = (.ok ((resp 19).volume, (resp 19).price), 20)) ∧
    ((∀ i, i < 20 → (resp i).status = 429) →
      fetch_ticker resp = (.error errTicker, 20)) ∧
    ((resp 0).status ≠ 200 → (resp 0).status ≠ 429 →
      fetch_ticker resp = (.error errTicker, 1)) := by
  refine ⟨?_, ?_, ?_⟩
  · intro h429 h200
    exact fetch_ticker_go_success resp 19 h429 h200 (by decide) MAX_RETRIES 0
      (by decide) (by decide)
  · intro hall
    exact fetch_ticker_go_all_rate_limited resp hall MAX_RETRIES 0 (by decide) rfl
  · intro h200 h429
    have hM : (MAX_RETRIES : Nat) = 19 + 1 := rfl
    rw [fetch_ticker, hM, fetch_ticker_go]
    simp [h200, h429]

def respNineteenThenSuccess : Nat → TickerResponse := fun i =>
  if i < 19 then ⟨429, none, none⟩ else ⟨200, some 7, some 3⟩

def respAlwaysRateLimited : Nat → TickerResponse := fun _ => ⟨429, none, none⟩

def respServerError : Nat → TickerResponse := fun _ => ⟨500, none, none⟩

/-- Witness for C5 at concrete response sequences. -/
theorem C5_ticker_retry_witness :
    fetch_ticker respNineteenThenSuccess = (.ok (some 7, some 3), 20) ∧
    fetch_ticker respAlwaysRateLimited = (.error errTicker, 20) ∧
    fetch_ticker respServerError = (.error errTicker, 1) :=
  ⟨(C5_ticker_retry respNineteenThenSuccess).1 (by decide) (by decide),
   (C5_ticker_retry respAlwaysRateLimited).2.1 (by decide),
   (C5_ticker_retry respServerError).2.2 (by decide) (by decide)⟩

/-! ### Claim C8: snapshot fetcher -/

/-- Model of get_snapshot, lines 125-139 of the source: one request is issued
with no retry; the response is a status and the raw JSON payload. A non-200
status raises IOError, otherwise the payload is returned unchanged. The Nat
component counts the requests issued. -/
def get_snapshot (response : Nat × Frame) : Except String Frame × Nat :=
  if response.1 ≠ 200 then (.error errSnapshot, 1) else (.ok response.2, 1)

/-- C8: the snapshot fetcher issues exactly one request with no retry, raises
a fetch error if and only if the response status is not 200, and otherwise
returns the raw snapshot payload unchanged. -/
theorem C8_get_snapshot_contract (response : Nat × Frame) :
    (get_snapshot response).2 = 1 ∧
    ((get_snapshot response).1 = .ok response.2 ↔ response.1 = 200) ∧
    (response.1 ≠ 200 → (get_snapshot response).1 = .error errSnapshot) := by
  by_cases h : response.1 = 200 <;> simp [get_snapshot, h]

/-- Witness for C8 at concrete responses: status 404 raises after one request
and status 200 uses exactly one request. -/
theorem C8_get_snapshot_contract_witness :
    (get_snapshot (404, ([] : Frame))).1 = .error errSnapshot ∧
    (get_snapshot (200, ([] : Frame))).2 = 1 :=
  ⟨(C8_get_snapshot_contract (404, [])).2.2 (by decide),
   (C8_get_snapshot_contract (200, [])).1⟩

/-! ### Tracking entry builder -/

/-- Model of get_tracking_pairs, lines 141-173 of the source: instruments are
processed sequentially; process p stands for the body of the try block for
instrument p (snapshot fetch, conversion, order book construction), whose
exception is caught, logged, and the instrument omitted. The returned
association list plays the role of the insertion-ordered dict retval. -/
def get_tracking_pairs {α : Type} (process : String → Except String α) :
    List String → List (String × α)
  | [] => []
  | p :: ps =>
    match process p with
    | .ok entry => (p, entry) :: get_tracking_pairs process ps
    | .error _ => get_tracking_pairs process ps

/-- C9: a failure while processing any single instrument is caught and that
instrument omitted while the batch continues: the keys of the returned mapping
are exactly the instruments whose processing succeeded, every successful
instrument appears with its entry, and no failed instrument appears. -/
theorem C9_tracking_entry_builder {α : Type} (process : String → Except String α)
    (pairs : List String) :
    ((get_tracking_pairs process pairs).map Prod.fst =
      pairs.filter (fun p => (process p).isOk)) ∧
    (∀ p e, p ∈ pairs → process p = .ok e →
      (p, e) ∈ get_tracking_pairs process pairs) ∧
    (∀ p, (process p).isOk = false →
      p ∉ (get_tracking_pairs process pairs).map Prod.fst) := by
  induction pairs with
  | nil => exact ⟨rfl, by simp, by simp [get_tracking_pairs]⟩
  | cons q ps ih =>
    obtain ⟨ih1, ih2, ih3⟩ := ih
    refine ⟨?_, ?_, ?_⟩
    · cases hq : process q with
      | ok e =>
        simp [get_tracking_pairs, hq, List.filter_cons, Except.isOk, Except.toBool, ih1]
      | error err =>
        simp [get_tracking_pairs, hq, List.filter_cons, Except.isOk, Except.toBool, ih1]
    · intro p e hmem hok
      rcases List.mem_cons.mp hmem with h | h
      · subst h
        simp [get_tracking_pairs, hok]
      · cases hq : process q with
        | ok e2 =>
          simp only [get_tracking_pairs, hq, List.mem_cons]
          exact Or.inr (ih2 p e h hok)
        | error err =>
          simp only [get_tracking_pairs, hq]
          exact ih2 p e h hok
    · intro p hbad
      cases hq : process q with
      | ok e =>
        have hpq : p ≠ q := by
          intro h
          subst h
          rw [hq] at hbad
          simp [Except.isOk, Except.toBool] at hbad
        simp only [get_tracking_pairs, hq, List.map_cons, List.mem_cons]
        push_neg
        exact ⟨hpq, ih3 p hbad⟩
      | error err =>
        simp only [get_tracking_pairs, hq]
        exact ih3 p hbad

/-- Witness for C9 at a concrete batch where the first instrument fails. -/
theorem C9_tracking_entry_builder_witness :
    ((get_tracking_pairs
        (fun p => if p = kOpen then Except.error kError else Except.ok 1)
        [kOpen, kDone, kMatch]).map Prod.fst = [kDone, kMatch]) ∧
    (kDone, 1) ∈ get_tracking_pairs
        (fun p => if p = kOpen then Except.error kError else Except.ok 1)
        [kOpen, kDone, kMatch] ∧
    kOpen ∉ (get_tracking_pairs
        (fun p => if p = kOpen then Except.error kError else Except.ok 1)
        [kOpen, kDone, kMatch]).map Prod.fst :=
  ⟨(C9_tracking_entry_builder _ [kOpen, kDone, kMatch]).1.trans (by decide),
   (C9_tracking_entry_builder _ [kOpen, kDone, kMatch]).2.1 kDone 1 (by decide) rfl,
   (C9_tracking_entry_builder _ [kOpen, kDone, kMatch]).2.2 kOpen rfl⟩

/-! ### Claim C10: metadata keys of the two snapshot paths -/

/-- Metadata dictionary attached to snapshot messages by the tracking entry
builder, line 155 of the source. -/
def tracking_snapshot_metadata (trading_pair : String) : List (String × JVal) :=
  [(kSymbol, JVal.str trading_pair)]

/-- Metadata dictionary attached to snapshot messages by the periodic
snapshot refresher, line 246 of the source. -/
def refresher_snapshot_metadata (trading_pair : String) : List (String × JVal) :=
  [(kProductId, JVal.str trading_pair)]

/-- C10: the two snapshot production paths tag the instrument id under
different metadata keys, symbol versus product_id; for every instrument the
two metadata dictionaries disagree at both keys and are never equal as keyed
records. -/
theorem C10_metadata_keys_differ (trading_pair : String) :
    (tracking_snapshot_metadata trading_pair).lookup kSymbol =
      some (JVal.str trading_pair) ∧
    (refresher_snapshot_metadata trading_pair).lookup kSymbol = none ∧
    (refresher_snapshot_metadata trading_pair).lookup kProductId =
      some (JVal.str trading_pair) ∧
    (tracking_snapshot_metadata trading_pair).lookup kProductId = none ∧
    tracking_snapshot_metadata trading_pair ≠
      refresher_snapshot_metadata trading_pair := by
  refine ⟨?_, ?_, ?_, ?_, ?_⟩ <;>
    simp [tracking_snapshot_metadata, refresher_snapshot_metadata, List.lookup,
      kSymbol, kProductId]

/-! ### Market directory: USD volume assignment and ranking -/

def kUSD : String := "USD"

def kUSDC : String := "USDC"

def kUSDS : String := "USDS"

def kDAI : String := "DAI"

def kPAX : String := "PAX"

def kTUSD : String := "TUSD"

def kUSDT : String := "USDT"

def kBTC : String := "BTC"

def kETH : String := "ETH"

def kEUR : String := "EUR"

def kGBP : String := "GBP"

def kBTCUSD : String := "BTC-USD"

def kETHUSD : String := "ETH-USD"

def kBTCEUR : String := "BTC-EUR"

def kBTCGBP : String := "BTC-GBP"

/-- One row of the all_markets frame after the ticker loop: the instrument id
and the volume and price columns; none models the floating NaN that data.get
defaults to when the ticker body lacks the field. -/
structure MarketRow where
  id : String
  volume : Option ℚ
  price : Option ℚ
  deriving DecidableEq

/-- NaN-propagating multiplication: a NaN factor makes the product NaN. -/
def oMul : Option ℚ → Option ℚ → Option ℚ
  | some a, some b => some (a * b)
  | _, _ => none

def errKeyError : String := "reference pair missing from batch"

def errZeroDiv : String := "float division by zero"

/-- Division for the EUR and GBP cross rates, modelling Python float
division: a zero denominator raises ZeroDivisionError whatever the numerator
is, a NaN denominator yields NaN without raising, and a NaN numerator over a
nonzero denominator propagates NaN. -/
def oDiv (a b : Option ℚ) : Except String (Option ℚ) :=
  match b with
  | none => .ok none
  | some d =>
    if d = 0 then .error errZeroDiv
    else
      match a with
      | none => .ok none
      | some n => .ok (some (n / d))

/-- Suffix test on strings evaluated on the underlying character lists,
modelling the Python endswith used on lines 99-107. -/
def strEndsWith (s sfx : String) : Bool := sfx.data.isSuffixOf s.data

/-- Quote suffixes treated as already USD denominated on line 99. -/
def usdQuoteSuffixes : List String := [kUSD, kUSDC, kUSDS, kDAI, kPAX, kTUSD, kUSDT]

/-- Python endswith applied to a tuple of suffixes: true when any matches. -/
def endsWithAny (s : String) (sfx : List String) : Bool :=
  sfx.any (fun t => strEndsWith s t)

/-- Price column of the reference pair pid, as read by the loc lookups on
lines 90-93: a missing label raises KeyError, which aborts the whole refresh;
a present pair may still carry a NaN price. -/
def loc_price (rows : List MarketRow) (pid : String) : Except String (Option ℚ) :=
  match rows.find? (fun r => r.id == pid) with
  | some r => .ok r.price
  | none => .error errKeyError

/-- USD volume assigned to one row by the suffix chain on lines 99-111,
paired with the flag recording whether the final else branch logged the row
as unconvertible; an EUR or GBP row raises if the cross-rate division does. -/
def usd_volume_entry (btcUsd ethUsd btcEur btcGbp : Option ℚ)
    (row : MarketRow) : Except String (Option ℚ × Bool) :=
  if endsWithAny row.id usdQuoteSuffixes then .ok (oMul row.volume row.price, false)
  else if strEndsWith row.id kBTC then
    .ok (oMul (oMul row.volume row.price) btcUsd, false)
  else if strEndsWith row.id kETH then
    .ok (oMul (oMul row.volume row.price) ethUsd, false)
  else if strEndsWith row.id kEUR then
    (oDiv btcUsd btcEur).map (fun rate => (oMul (oMul row.volume row.price) rate, false))
  else if strEndsWith row.id kGBP then
    (oDiv btcUsd btcGbp).map (fun rate => (oMul (oMul row.volume row.price) rate, false))
  else .ok (none, true)

/-- A market row annotated with its USDVolume column. -/
structure RankedRow where
  row : MarketRow
  usdVolume : Option ℚ
  deriving DecidableEq

/-- Pass over all rows assigning the USDVolume column and collecting the ids
logged as unconvertible, mirroring the loop on lines 95-111; the first row
whose entry raises aborts the whole pass. -/
def assign_usd_volumes (btcUsd ethUsd btcEur btcGbp : Option ℚ) :
    List MarketRow → Except String (List RankedRow × List String)
  | [] => .ok ([], [])
  | r :: rs =>
    match usd_volume_entry btcUsd ethUsd btcEur btcGbp r with
    | .error ex => .error ex
    | .ok entry =>
      match assign_usd_volumes btcUsd ethUsd btcEur btcGbp rs with
      | .error ex => .error ex
      | .ok rest =>
        .ok (⟨r, entry.1⟩ :: rest.1, if entry.2 then r.id :: rest.2 else rest.2)

/-- Sort key of a ranked row: NaN (none) sorts below every number, which in a
descending sort places it last, matching the pandas default of putting NaN
last in sort_values. -/
def usdKey (x : RankedRow) : WithBot ℚ :=
  match x.usdVolume with
  | some q => (q : WithBot ℚ)
  | none => ⊥

/-- Descending comparison used by the final sort_values call on line 113. -/
def rankedGE (a b : RankedRow) : Prop := usdKey b ≤ usdKey a

instance : DecidableRel rankedGE :=
  fun a b => inferInstanceAs (Decidable (usdKey b ≤ usdKey a))

instance : IsTotal RankedRow rankedGE :=
  ⟨fun a b => le_total (usdKey b) (usdKey a)⟩

instance : IsTrans RankedRow rankedGE :=
  ⟨fun _ _ _ hab hbc => le_trans hbc hab⟩

/-- Model of the tail of get_active_exchange_markets, lines 88-113: read the
four reference cross rates with loc (a missing pair raises KeyError, in
source line order), assign USD volumes (a cross-rate division by zero raises
while processing the offending row), and sort the frame in descending order
of USD volume; also returns the ids logged as unconvertible. Any raise aborts
the whole refresh with no result. -/
def rank_markets (rows : List MarketRow) :
    Except String (List RankedRow × List String) :=
  match loc_price rows kBTCUSD with
  | .error ex => .error ex
  | .ok btcUsd =>
    match loc_price rows kETHUSD with
    | .error ex => .error ex
    | .ok ethUsd =>
      match loc_price rows kBTCEUR with
      | .error ex => .error ex
      | .ok btcEur =>
        match loc_price rows kBTCGBP with
        | .error ex => .error ex
        | .ok btcGbp =>
          match assign_usd_volumes btcUsd ethUsd btcEur btcGbp rows with
          | .error ex => .error ex
          | .ok a => .ok (List.insertionSort rankedGE a.1, a.2)

/-- Annotating rows with USD volume, when it completes without raising,
preserves the rows themselves. -/
theorem assign_usd_volumes_ok_map_row (b e eu g : Option ℚ) :
    ∀ (rows : List MarketRow) (a : List RankedRow × List String),
      assign_usd_volumes b e eu g rows = .ok a →
      a.1.map RankedRow.row = rows := by
  intro rows
  induction rows with
  | nil =>
    intro a ha
    simp only [assign_usd_volumes, Except.ok.injEq] at ha
    rw [← ha]
    rfl
  | cons r rs ih =>
    intro a ha
    cases he : usd_volume_entry b e eu g r with
    | error ex => simp [assign_usd_volumes, he] at ha
    | ok entry =>
      cases hr : assign_usd_volumes b e eu g rs with
      | error ex => simp [assign_usd_volumes, he, hr] at ha
      | ok rest =>
        simp only [assign_usd_volumes, he, hr, Except.ok.injEq] at ha
        rw [← ha]
        simp [ih rest hr]

/-- Every row that the suffix chain sends to the unconvertible branch appears
in the completed pass annotated with NaN, and its id is logged. -/
theorem assign_usd_volumes_ok_mem (b e eu g : Option ℚ) :
    ∀ (rows : List MarketRow) (a : List RankedRow × List String),
      assign_usd_volumes b e eu g rows = .ok a →
      ∀ r, r ∈ rows → usd_volume_entry b e eu g r = .ok (none, true) →
        (⟨r, none⟩ : RankedRow) ∈ a.1 ∧ r.id ∈ a.2 := by
  intro rows
  induction rows with
  | nil =>
    intro a _ r hmem _
    cases hmem
  | cons q rs ih =>
    intro a ha r hmem hval
    cases he : usd_volume_entry b e eu g q with
    | error ex => simp [assign_usd_volumes, he] at ha
    | ok entry =>
      cases hr : assign_usd_volumes b e eu g rs with
      | error ex => simp [assign_usd_volumes, he, hr] at ha
      | ok rest =>
        simp only [assign_usd_volumes, he, hr, Except.ok.injEq] at ha
        rcases List.mem_cons.mp hmem with hq | hq
        · subst hq
          rw [hval] at he
          injection he with h
          rw [← ha, ← h]
          exact ⟨List.mem_cons_self _ _, by simp⟩
        · obtain ⟨hm, hl⟩ := ih rest hr r hq hval
          rw [← ha]
          refine ⟨List.mem_cons_of_mem _ hm, ?_⟩
          rcases Bool.eq_false_or_eq_true entry.2 with hflag | hflag <;>
            simp [hflag, hl]

/-- A row whose id matches no conversion suffix is assigned NaN and flagged
for the log, without raising. -/
theorem usd_volume_entry_unmatched (b e eu g : Option ℚ) (r : MarketRow)
    (h0 : endsWithAny r.id usdQuoteSuffixes = false)
    (h1 : strEndsWith r.id kBTC = false) (h2 : strEndsWith r.id kETH = false)
    (h3 : strEndsWith r.id kEUR = false) (h4 : strEndsWith r.id kGBP = false) :
    usd_volume_entry b e eu g r = .ok (none, true) := by
  simp [usd_volume_entry, h0, h1, h2, h3, h4]

/-! ### Claim C6: ranking sorted descending, NaN for unknown conversion paths -/

/-- C6: whenever the market directory refresh completes with a result (the
loc lookups of the four reference pairs succeed and no cross-rate division
raises), that result is sorted in descending order of computed USD volume
(NaN ordered below every number and hence placed last), it is a permutation
of the annotated input so no single instrument aborts the batch, and every
instrument whose identifier suffix matches no known conversion path is
assigned NaN USD volume, appears in the result, and has its id logged. -/
theorem C6_ranking_sorted_and_nan (rows : List MarketRow)
    (res : List RankedRow × List String)
    (hres : rank_markets rows = .ok res) :
    List.Sorted rankedGE res.1 ∧
    (res.1.map RankedRow.row).Perm rows ∧
    (∀ r, r ∈ rows →
      endsWithAny r.id usdQuoteSuffixes = false →
      strEndsWith r.id kBTC = false → strEndsWith r.id kETH = false →
      strEndsWith r.id kEUR = false → strEndsWith r.id kGBP = false →
      (⟨r, none⟩ : RankedRow) ∈ res.1 ∧ r.id ∈ res.2) := by
  cases h1 : loc_price rows kBTCUSD with
  | error ex => simp [rank_markets, h1] at hres
  | ok btcUsd =>
  cases h2 : loc_price rows kETHUSD with
  | error ex => simp [rank_markets, h1, h2] at hres
  | ok ethUsd =>
  cases h3 : loc_price rows kBTCEUR with
  | error ex => simp [rank_markets, h1, h2, h3] at hres
  | ok btcEur =>
  cases h4 : loc_price rows kBTCGBP with
  | error ex => simp [rank_markets, h1, h2, h3, h4] at hres
  | ok btcGbp =>
  cases ha : assign_usd_volumes btcUsd ethUsd btcEur btcGbp rows with
  | error ex => simp [rank_markets, h1, h2, h3, h4, ha] at hres
  | ok a =>
  simp only [rank_markets, h1, h2, h3, h4, ha, Except.ok.injEq] at hres
  subst hres
  refine ⟨List.sorted_insertionSort rankedGE a.1, ?_, ?_⟩
  · have hmap := (List.perm_insertionSort rankedGE a.1).map RankedRow.row
    rwa [assign_usd_volumes_ok_map_row btcUsd ethUsd btcEur btcGbp rows a ha]
      at hmap
  · intro r hmem hb0 hb1 hb2 hb3 hb4
    have hval := usd_volume_entry_unmatched btcUsd ethUsd btcEur btcGbp r
      hb0 hb1 hb2 hb3 hb4
    obtain ⟨hm, hl⟩ := assign_usd_volumes_ok_mem btcUsd ethUsd btcEur btcGbp
      rows a ha r hmem hval
    exact ⟨(List.mem_insertionSort rankedGE).mpr hm, hl⟩

def kFooBar : String := "FOO-BAR"

/-- Concrete batch for the C6 witness: all four reference pairs are present,
so the loc lookups succeed, the cross-rate denominators are nonzero, and one
market has an unknown quote suffix. -/
def sampleBatch : List MarketRow :=
  [⟨kBTCUSD, some 2, some 3⟩, ⟨kETHUSD, none, some 5⟩,
   ⟨kBTCEUR, none, some 2⟩, ⟨kBTCGBP, none, some 4⟩,
   ⟨kFooBar, none, some 1⟩]

/-- Result the refresh computes on the sample batch. -/
def sampleRanked : List RankedRow :=
  [⟨⟨kBTCUSD, some 2, some 3⟩, oMul (some 2) (some 3)⟩,
   ⟨⟨kETHUSD, none, some 5⟩, none⟩,
   ⟨⟨kBTCEUR, none, some 2⟩, none⟩,
   ⟨⟨kBTCGBP, none, some 4⟩, none⟩,
   ⟨⟨kFooBar, none, some 1⟩, none⟩]

/-- Witness for C6 on the sample batch: the refresh completes, its result is
sorted, and the unknown-suffix market appears with NaN USD volume and is
logged. -/
theorem C6_ranking_sorted_and_nan_witness :
    List.Sorted rankedGE sampleRanked ∧
    (⟨⟨kFooBar, none, some 1⟩, none⟩ : RankedRow) ∈ sampleRanked ∧
    kFooBar ∈ [kFooBar] :=
  ⟨(C6_ranking_sorted_and_nan sampleBatch (sampleRanked, [kFooBar]) rfl).1,
   ((C6_ranking_sorted_and_nan sampleBatch (sampleRanked, [kFooBar]) rfl).2.2
      ⟨kFooBar, none, some 1⟩ (by decide) (by decide) (by decide) (by decide)
      (by decide) (by decide)).1,
   ((C6_ranking_sorted_and_nan sampleBatch (sampleRanked, [kFooBar]) rfl).2.2
      ⟨kFooBar, none, some 1⟩ (by decide) (by decide) (by decide) (by decide)
      (by decide) (by decide)).2⟩

end CoinbasePro
